import Mathlib

/-!
Verification of the OptaButton library (src/OptaButton.h, src/OptaButton.cpp):
a debounced push-button event generator with short-press, release, long-press,
long-release and accelerating auto-repeat events, driven by a periodic
`update()` poll and a monotonic millisecond clock.

The embedding is shallow.  `OptaButton::update()` is a pure state transformer
`update : Config → BState → Nat → Bool → BState`, where the `Nat` argument is
the `millis()` value (a uint32, so `< 2^32` in any real execution) and the
`Bool` argument is the value returned by `readInput()` on this poll (the raw
hardware reading with inversion applied).  All uint32 subtractions
(`now - timestamp`) wrap modulo `2^32` exactly as in C++, via `wsub`; the one
uint32 addition that can overflow (`lastRepeatTime += currentRepeatInterval`,
OptaButton.cpp line 134) is likewise reduced modulo `2^32`.
-/

namespace OptaButton

/-- `2^32`, the modulus of C++ `uint32_t` arithmetic. -/
def M32 : Nat := 4294967296

/-- C++ `uint32_t` subtraction `a - b`: wraparound-safe elapsed-time
computation, `(a - b) mod 2^32`. -/
def wsub (a b : Nat) : Nat := (a % M32 + M32 - b % M32) % M32

/-- `LOOP_INTERVAL_MS` (OptaButton.h line 79): minimum ms between updates. -/
def LOOP_INTERVAL_MS : Nat := 1

/-- The constructor-time configuration of one button (the `const` members of
`OptaButton`, OptaButton.h lines 108-118).  `inputMode`, `inputID` and the
label only affect `readInput`/`begin` and are kept out of the timing state
machine, which never inspects them. -/
structure Config where
  debounceTime : Nat
  invertedLogic : Bool
  longPressThreshold : Nat
  repeatIntervalStart : Nat
  repeatIntervalMin : Nat
  acceleration : Nat
deriving DecidableEq, Repr

/-- The mutable per-button state (OptaButton.h lines 117-139): the running
repeat interval, the four timestamps, the debounce/logical-state booleans, the
five one-shot event flags and the long-press-reported guard. -/
structure BState where
  currentRepeatInterval : Nat
  lastUpdateTime : Nat
  edgeTime : Nat
  lastRepeatTime : Nat
  lastAccelUpdate : Nat
  rawState : Bool
  debouncing : Bool
  currentPressed : Bool
  longPressActive : Bool
  shortPressDetected : Bool
  releaseDetected : Bool
  longPressDetected : Bool
  longReleaseDetected : Bool
  repeatTriggered : Bool
  longPressReported : Bool
deriving DecidableEq, Repr

/-- Constructor initialization (OptaButton.cpp lines 32-49): repeat interval
starts at `repeatIntervalStart`, all timestamps 0, all booleans false. -/
def initState (c : Config) : BState :=
  { currentRepeatInterval := c.repeatIntervalStart
    lastUpdateTime := 0
    edgeTime := 0
    lastRepeatTime := 0
    lastAccelUpdate := 0
    rawState := false
    debouncing := false
    currentPressed := false
    longPressActive := false
    shortPressDetected := false
    releaseDetected := false
    longPressDetected := false
    longReleaseDetected := false
    repeatTriggered := false
    longPressReported := false }

/-- OptaButton.cpp lines 72-76: clear the five event flags at the start of
every `update()` call (this happens before the rate-limit check). -/
def clearFlags (s : BState) : BState :=
  { s with shortPressDetected := false
           releaseDetected := false
           longPressDetected := false
           longReleaseDetected := false
           repeatTriggered := false }

/-- OptaButton.cpp lines 94-113: edge detection.  If the raw reading differs
from the recorded raw state and no debounce is in progress, record the new raw
state, enter debounce, stamp the edge, and fire the press- or
release-direction events. -/
def edgePhase (c : Config) (now : Nat) (pressed : Bool) (s : BState) : BState :=
  if pressed ≠ s.rawState ∧ s.debouncing = false then
    if pressed then
      { s with rawState := pressed
               debouncing := true
               edgeTime := now
               shortPressDetected := true
               currentPressed := true
               longPressActive := false
               currentRepeatInterval := c.repeatIntervalStart
               lastRepeatTime := now
               lastAccelUpdate := now }
    else
      { s with rawState := pressed
               debouncing := true
               edgeTime := now
               releaseDetected := true
               longReleaseDetected := s.longPressActive
               currentPressed := false
               longPressActive := false
               longPressReported := false }
  else s

/-- OptaButton.cpp lines 116-118: exit debounce once the window has passed. -/
def debounceExitPhase (c : Config) (now : Nat) (s : BState) : BState :=
  if s.debouncing = true ∧ c.debounceTime ≤ wsub now s.edgeTime then
    { s with debouncing := false }
  else s

/-- OptaButton.cpp lines 123-129: fire the long-press event once per physical
press when the hold time crosses the threshold. -/
def longPressPhase (c : Config) (now : Nat) (s : BState) : BState :=
  if s.longPressReported = false ∧ c.longPressThreshold ≤ wsub now s.edgeTime then
    { s with longPressDetected := true
             longPressActive := true
             longPressReported := true
             lastRepeatTime := now
             lastAccelUpdate := now }
  else s

/-- OptaButton.cpp lines 132-135: fire a repeat and advance the schedule by
exactly the current interval (uint32 addition, mod `2^32`). -/
def repeatPhase (now : Nat) (s : BState) : BState :=
  if s.longPressActive = true ∧ s.currentRepeatInterval ≤ wsub now s.lastRepeatTime then
    { s with repeatTriggered := true
             lastRepeatTime := (s.lastRepeatTime + s.currentRepeatInterval) % M32 }
  else s

/-- OptaButton.cpp lines 138-146: once per second while long-pressing, shrink
the repeat interval by the acceleration step, floored at the minimum.  The
C++ computes `max(int(currentRepeatInterval - acceleration),
int(repeatIntervalMin))` in `int` arithmetic (both operands are promoted, so
the subtraction may go negative before the max); over `Nat`, truncated
subtraction followed by `max` with the minimum yields the same value. -/
def accelPhase (c : Config) (now : Nat) (s : BState) : BState :=
  if s.longPressActive = true ∧ 1000 ≤ wsub now s.lastAccelUpdate
      ∧ c.repeatIntervalMin < s.currentRepeatInterval then
    { s with currentRepeatInterval :=
               max (s.currentRepeatInterval - c.acceleration) c.repeatIntervalMin
             lastAccelUpdate := now }
  else s

/-- OptaButton.cpp lines 121-147: the long-press / repeat / acceleration block,
entered only when out of debounce and logically pressed (the `debouncing`
value tested is the one after `debounceExitPhase`). -/
def holdPhase (c : Config) (now : Nat) (s : BState) : BState :=
  if s.debouncing = false ∧ s.currentPressed = true then
    accelPhase c now (repeatPhase now (longPressPhase c now s))
  else s

/-- `OptaButton::update()` (OptaButton.cpp lines 70-148).  `now` is the
`millis()` reading for this call and `pressed` the value `readInput()` would
return.  Flags are cleared first; a call less than `LOOP_INTERVAL_MS` after
the previous non-skipped call returns right after clearing them; otherwise the
update time is recorded and the edge, debounce-exit and hold phases run in
order.  (The refresh-token block, lines 83-88, touches only the shared
globals and is modeled separately by `tokenStep`.) -/
def update (c : Config) (s : BState) (now : Nat) (pressed : Bool) : BState :=
  let s0 := clearFlags s
  if wsub now s0.lastUpdateTime < LOOP_INTERVAL_MS then s0
  else
    holdPhase c now
      (debounceExitPhase c now
        (edgePhase c now pressed { s0 with lastUpdateTime := now }))

/-- `OptaButton::isShortPressed` (OptaButton.cpp lines 195-197). -/
def isShortPressed (s : BState) : Bool := s.shortPressDetected

/-- `OptaButton::isReleased` (OptaButton.cpp lines 198-200). -/
def isReleased (s : BState) : Bool := s.releaseDetected

/-- `OptaButton::isLongPressed` (OptaButton.cpp lines 201-203). -/
def isLongPressed (s : BState) : Bool := s.longPressDetected

/-- `OptaButton::isLongReleased` (OptaButton.cpp lines 204-206). -/
def isLongReleased (s : BState) : Bool := s.longReleaseDetected

/-- `OptaButton::isRepeating` (OptaButton.cpp lines 207-209). -/
def isRepeating (s : BState) : Bool := s.repeatTriggered

/-! ### Basic arithmetic lemmas about wraparound subtraction -/

theorem wsub_self (a : Nat) : wsub a a = 0 := by
  unfold wsub M32
  omega

theorem wsub_sub {a b : Nat} (h1 : b ≤ a) (h2 : a < M32) : wsub a b = a - b := by
  unfold wsub M32 at *
  omega

/-- Unsigned subtraction computes the true elapsed time across clock
wraparound: if the true instants are `b ≤ a` with `a - b < 2^32`, then the
uint32 subtraction of their wrapped clock readings is exactly `a - b`. -/
theorem wsub_wrap {a b : Nat} (h1 : b ≤ a) (h2 : a - b < M32) :
    wsub (a % M32) (b % M32) = a - b := by
  unfold wsub M32 at *
  omega

/-! ### Unfolding lemmas for the phases of `update` -/

theorem update_skip {c : Config} {s : BState} {now : Nat} {p : Bool}
    (h : wsub now s.lastUpdateTime < LOOP_INTERVAL_MS) :
    update c s now p = clearFlags s := by
  have h' : wsub now (clearFlags s).lastUpdateTime < LOOP_INTERVAL_MS := by
    simp only [clearFlags]
    exact h
  simp only [update]
  rw [if_pos h']

theorem update_go {c : Config} {s : BState} {now : Nat} {p : Bool}
    (h : LOOP_INTERVAL_MS ≤ wsub now s.lastUpdateTime) :
    update c s now p =
      holdPhase c now (debounceExitPhase c now
        (edgePhase c now p { clearFlags s with lastUpdateTime := now })) := by
  have h' : ¬ wsub now (clearFlags s).lastUpdateTime < LOOP_INTERVAL_MS := by
    simp only [clearFlags]
    exact Nat.not_lt.mpr h
  simp only [update]
  rw [if_neg h']

theorem edgePhase_same {c : Config} {now : Nat} {p : Bool} {s : BState}
    (h : p = s.rawState) : edgePhase c now p s = s := by
  simp [edgePhase, h]

theorem edgePhase_deb {c : Config} {now : Nat} {p : Bool} {s : BState}
    (h : s.debouncing = true) : edgePhase c now p s = s := by
  simp [edgePhase, h]

theorem edgePhase_press {c : Config} {now : Nat} {s : BState}
    (h1 : s.rawState = false) (h2 : s.debouncing = false) :
    edgePhase c now true s =
      { s with rawState := true
               debouncing := true
               edgeTime := now
               shortPressDetected := true
               currentPressed := true
               longPressActive := false
               currentRepeatInterval := c.repeatIntervalStart
               lastRepeatTime := now
               lastAccelUpdate := now } := by
  simp [edgePhase, h1, h2]

theorem edgePhase_release {c : Config} {now : Nat} {s : BState}
    (h1 : s.rawState = true) (h2 : s.debouncing = false) :
    edgePhase c now false s =
      { s with rawState := false
               debouncing := true
               edgeTime := now
               releaseDetected := true
               longReleaseDetected := s.longPressActive
               currentPressed := false
               longPressActive := false
               longPressReported := false } := by
  simp [edgePhase, h1, h2]

theorem debounceExit_not {c : Config} {now : Nat} {s : BState}
    (h : s.debouncing = false) : debounceExitPhase c now s = s := by
  simp [debounceExitPhase, h]

theorem debounceExit_stay {c : Config} {now : Nat} {s : BState}
    (h : wsub now s.edgeTime < c.debounceTime) : debounceExitPhase c now s = s := by
  simp [debounceExitPhase, Nat.not_le.mpr h]

theorem debounceExit_clear {c : Config} {now : Nat} {s : BState}
    (h1 : s.debouncing = true) (h2 : c.debounceTime ≤ wsub now s.edgeTime) :
    debounceExitPhase c now s = { s with debouncing := false } := by
  simp [debounceExitPhase, h1, h2]

theorem holdPhase_skip_deb {c : Config} {now : Nat} {s : BState}
    (h : s.debouncing = true) : holdPhase c now s = s := by
  simp [holdPhase, h]

theorem holdPhase_skip_up {c : Config} {now : Nat} {s : BState}
    (h : s.currentPressed = false) : holdPhase c now s = s := by
  simp [holdPhase, h]

theorem holdPhase_go {c : Config} {now : Nat} {s : BState}
    (h1 : s.debouncing = false) (h2 : s.currentPressed = true) :
    holdPhase c now s = accelPhase c now (repeatPhase now (longPressPhase c now s)) := by
  simp [holdPhase, h1, h2]

theorem longPressPhase_guard {c : Config} {now : Nat} {s : BState}
    (h : s.longPressReported = true) : longPressPhase c now s = s := by
  simp [longPressPhase, h]

theorem longPressPhase_early {c : Config} {now : Nat} {s : BState}
    (h : wsub now s.edgeTime < c.longPressThreshold) : longPressPhase c now s = s := by
  simp [longPressPhase, Nat.not_le.mpr h]

theorem longPressPhase_fire {c : Config} {now : Nat} {s : BState}
    (h1 : s.longPressReported = false) (h2 : c.longPressThreshold ≤ wsub now s.edgeTime) :
    longPressPhase c now s =
      { s with longPressDetected := true
               longPressActive := true
               longPressReported := true
               lastRepeatTime := now
               lastAccelUpdate := now } := by
  simp [longPressPhase, h1, h2]

theorem repeatPhase_off {now : Nat} {s : BState}
    (h : s.longPressActive = false) : repeatPhase now s = s := by
  simp [repeatPhase, h]

theorem repeatPhase_wait {now : Nat} {s : BState}
    (h : wsub now s.lastRepeatTime < s.currentRepeatInterval) : repeatPhase now s = s := by
  simp [repeatPhase, Nat.not_le.mpr h]

theorem repeatPhase_fire {now : Nat} {s : BState}
    (h1 : s.longPressActive = true) (h2 : s.currentRepeatInterval ≤ wsub now s.lastRepeatTime) :
    repeatPhase now s =
      { s with repeatTriggered := true
               lastRepeatTime := (s.lastRepeatTime + s.currentRepeatInterval) % M32 } := by
  simp [repeatPhase, h1, h2]

theorem accelPhase_off {c : Config} {now : Nat} {s : BState}
    (h : s.longPressActive = false) : accelPhase c now s = s := by
  simp [accelPhase, h]

theorem accelPhase_floor {c : Config} {now : Nat} {s : BState}
    (h : ¬ c.repeatIntervalMin < s.currentRepeatInterval) : accelPhase c now s = s := by
  simp [accelPhase, h]

theorem accelPhase_fire {c : Config} {now : Nat} {s : BState}
    (h1 : s.longPressActive = true) (h2 : 1000 ≤ wsub now s.lastAccelUpdate)
    (h3 : c.repeatIntervalMin < s.currentRepeatInterval) :
    accelPhase c now s =
      { s with currentRepeatInterval :=
                 max (s.currentRepeatInterval - c.acceleration) c.repeatIntervalMin
               lastAccelUpdate := now } := by
  simp [accelPhase, h1, h2, h3]

/-- Fields that none of the three hold-block phases (long-press, repeat,
acceleration) ever write. -/
theorem holdPhase_preserves (c : Config) (now : Nat) (s : BState) :
    (holdPhase c now s).lastUpdateTime = s.lastUpdateTime ∧
    (holdPhase c now s).edgeTime = s.edgeTime ∧
    (holdPhase c now s).rawState = s.rawState ∧
    (holdPhase c now s).debouncing = s.debouncing ∧
    (holdPhase c now s).currentPressed = s.currentPressed ∧
    (holdPhase c now s).shortPressDetected = s.shortPressDetected ∧
    (holdPhase c now s).releaseDetected = s.releaseDetected ∧
    (holdPhase c now s).longReleaseDetected = s.longReleaseDetected := by
  unfold holdPhase accelPhase repeatPhase longPressPhase
  repeat' split
  all_goals simp

/-- Fields the acceleration phase never writes. -/
theorem accelPhase_preserves (c : Config) (now : Nat) (s : BState) :
    (accelPhase c now s).repeatTriggered = s.repeatTriggered ∧
    (accelPhase c now s).lastRepeatTime = s.lastRepeatTime ∧
    (accelPhase c now s).longPressDetected = s.longPressDetected ∧
    (accelPhase c now s).longPressActive = s.longPressActive ∧
    (accelPhase c now s).longPressReported = s.longPressReported := by
  unfold accelPhase
  split
  all_goals simp

/-- Fields the repeat phase never writes. -/
theorem repeatPhase_preserves (now : Nat) (s : BState) :
    (repeatPhase now s).currentRepeatInterval = s.currentRepeatInterval ∧
    (repeatPhase now s).lastAccelUpdate = s.lastAccelUpdate ∧
    (repeatPhase now s).longPressDetected = s.longPressDetected ∧
    (repeatPhase now s).longPressActive = s.longPressActive ∧
    (repeatPhase now s).longPressReported = s.longPressReported := by
  unfold repeatPhase
  split
  all_goals simp

/-- The debounce-exit phase writes only `debouncing`. -/
theorem debounceExit_preserves (c : Config) (now : Nat) (s : BState) :
    (debounceExitPhase c now s).shortPressDetected = s.shortPressDetected ∧
    (debounceExitPhase c now s).releaseDetected = s.releaseDetected ∧
    (debounceExitPhase c now s).currentPressed = s.currentPressed ∧
    (debounceExitPhase c now s).rawState = s.rawState := by
  unfold debounceExitPhase
  split
  all_goals simp

theorem clearFlags_lastUpdateTime (s : BState) :
    (clearFlags s).lastUpdateTime = s.lastUpdateTime := rfl

theorem clearFlags_rawState (s : BState) : (clearFlags s).rawState = s.rawState := rfl

theorem clearFlags_debouncing (s : BState) : (clearFlags s).debouncing = s.debouncing := rfl

theorem clearFlags_currentPressed (s : BState) :
    (clearFlags s).currentPressed = s.currentPressed := rfl

theorem clearFlags_longPressActive (s : BState) :
    (clearFlags s).longPressActive = s.longPressActive := rfl

theorem clearFlags_longPressReported (s : BState) :
    (clearFlags s).longPressReported = s.longPressReported := rfl

theorem clearFlags_edgeTime (s : BState) : (clearFlags s).edgeTime = s.edgeTime := rfl

theorem clearFlags_lastRepeatTime (s : BState) :
    (clearFlags s).lastRepeatTime = s.lastRepeatTime := rfl

theorem clearFlags_lastAccelUpdate (s : BState) :
    (clearFlags s).lastAccelUpdate = s.lastAccelUpdate := rfl

theorem clearFlags_currentRepeatInterval (s : BState) :
    (clearFlags s).currentRepeatInterval = s.currentRepeatInterval := rfl

/-! ### Witness configuration (the documented default configuration) -/

/-- The default configuration from the constructor signature
(OptaButton.h lines 88-93): debounce 20 ms, long press 800 ms, repeats from
100 ms down to 8 ms, accelerating by 100 ms per second. -/
def cfgW : Config :=
  { debounceTime := 20
    invertedLogic := false
    longPressThreshold := 800
    repeatIntervalStart := 100
    repeatIntervalMin := 8
    acceleration := 100 }

/-! ### C1: rate limiting -/

/-- C1 (amended): a call to `update()` made less than 1 ms after the previous
non-skipped call clears the five one-shot event flags — so all five event
accessors read false afterwards — and mutates nothing else.  (The claim's
"no state of the button is mutated" fails: the flags are cleared before the
rate-limit check, see `claim1_counterexample`.) -/
theorem claim1_rate_limited_call_clears_only_flags
    (c : Config) (s : BState) (now : Nat) (p : Bool)
    (h : wsub now s.lastUpdateTime < LOOP_INTERVAL_MS) :
    update c s now p = clearFlags s ∧
    isShortPressed (update c s now p) = false ∧
    isReleased (update c s now p) = false ∧
    isLongPressed (update c s now p) = false ∧
    isLongReleased (update c s now p) = false ∧
    isRepeating (update c s now p) = false := by
  refine ⟨update_skip h, ?_, ?_, ?_, ?_, ?_⟩ <;>
    simp [update_skip h, clearFlags, isShortPressed, isReleased, isLongPressed,
      isLongReleased, isRepeating]

/-- State after one non-skipped press-edge poll at `t = 5` from reset:
its `shortPressDetected` flag is set. -/
def sPressW : BState := update cfgW (initState cfgW) 5 true

/-- C1 counterexample: calling `update()` again 0 ms later (elapsed `< 1` ms)
does mutate button state — the set `shortPressDetected` flag is cleared — so
the call is not the claimed mutation-free no-op. -/
theorem claim1_counterexample :
    wsub 5 sPressW.lastUpdateTime < LOOP_INTERVAL_MS ∧
    sPressW.shortPressDetected = true ∧
    update cfgW sPressW 5 true ≠ sPressW := by decide

theorem claim1_witness :
    wsub 0 (initState cfgW).lastUpdateTime < LOOP_INTERVAL_MS ∧
    update cfgW (initState cfgW) 0 true = clearFlags (initState cfgW) := by
  exact ⟨by decide,
    (claim1_rate_limited_call_clears_only_flags cfgW (initState cfgW) 0 true (by decide)).1⟩

/-! ### C3: edge detection behavior -/

/-- C3: on a non-skipped poll whose raw reading differs from the recorded raw
state while no debounce is in progress (with a positive debounce window), the
machine records the new raw state, enters debounce, stamps the edge at `now`,
and — on a press edge — fires short-press in this same poll, sets the
debounced pressed state, resets the repeat interval to its initial value and
arms both the repeat and acceleration timestamps to `now`; on a release edge
it fires release in this same poll, fires long-release iff long-press was
active, clears the debounced pressed state and `longPressActive`, and clears
the `longPressReported` guard. -/
theorem claim3_edge_poll_behavior
    (c : Config) (s : BState) (now : Nat) (p : Bool)
    (hns : LOOP_INTERVAL_MS ≤ wsub now s.lastUpdateTime)
    (hne : p ≠ s.rawState) (hnd : s.debouncing = false)
    (hdb : 0 < c.debounceTime) :
    update c s now p =
      (if p then
        { clearFlags s with
            lastUpdateTime := now
            rawState := true
            debouncing := true
            edgeTime := now
            shortPressDetected := true
            currentPressed := true
            longPressActive := false
            currentRepeatInterval := c.repeatIntervalStart
            lastRepeatTime := now
            lastAccelUpdate := now }
      else
        { clearFlags s with
            lastUpdateTime := now
            rawState := false
            debouncing := true
            edgeTime := now
            releaseDetected := true
            longReleaseDetected := s.longPressActive
            currentPressed := false
            longPressActive := false
            longPressReported := false }) := by
  rw [update_go hns]
  have hdeb0 : ¬ c.debounceTime ≤ wsub now now := by
    rw [wsub_self]
    omega
  cases p with
  | true =>
    have hr : s.rawState = false := by
      cases hsr : s.rawState
      · rfl
      · rw [hsr] at hne
        simp at hne
    simp [edgePhase, debounceExitPhase, holdPhase, clearFlags, hr, hnd, hdeb0]
  | false =>
    have hr : s.rawState = true := by
      cases hsr : s.rawState
      · rw [hsr] at hne
        simp at hne
      · rfl
    simp [edgePhase, debounceExitPhase, holdPhase, clearFlags, hr, hnd, hdeb0]

theorem claim3_witness :
    LOOP_INTERVAL_MS ≤ wsub 7 (initState cfgW).lastUpdateTime ∧
    (true ≠ (initState cfgW).rawState) ∧
    (initState cfgW).debouncing = false ∧
    0 < cfgW.debounceTime ∧
    update cfgW (initState cfgW) 7 true =
      (if true then
        { clearFlags (initState cfgW) with
            lastUpdateTime := 7
            rawState := true
            debouncing := true
            edgeTime := 7
            shortPressDetected := true
            currentPressed := true
            longPressActive := false
            currentRepeatInterval := cfgW.repeatIntervalStart
            lastRepeatTime := 7
            lastAccelUpdate := 7 }
      else
        { clearFlags (initState cfgW) with
            lastUpdateTime := 7
            rawState := false
            debouncing := true
            edgeTime := 7
            releaseDetected := true
            longReleaseDetected := (initState cfgW).longPressActive
            currentPressed := false
            longPressActive := false
            longPressReported := false }) := by
  exact ⟨by decide, by decide, by decide, by decide,
    claim3_edge_poll_behavior cfgW (initState cfgW) 7 true (by decide) (by decide)
      (by decide) (by decide)⟩

/-! ### C4: repeat cadence is schedule-anchored -/

/-- C4: on a non-skipped steady poll (raw unchanged) while out of debounce,
logically pressed, long-press active (with its once-per-press guard set, as
is always the case when `longPressActive` holds), if the elapsed time since
the last-repeat timestamp has reached the current repeat interval then a
repeat event fires and the last-repeat timestamp advances by exactly the
current interval (uint32 addition) — it is not reset to `now`, so the repeat
schedule stays anchored and lagging polls catch up one repeat per poll. -/
theorem claim4_repeat_advances_by_interval
    (c : Config) (s : BState) (now : Nat) (p : Bool)
    (hns : LOOP_INTERVAL_MS ≤ wsub now s.lastUpdateTime)
    (hraw : p = s.rawState) (hnd : s.debouncing = false)
    (hcp : s.currentPressed = true) (hact : s.longPressActive = true)
    (hrep : s.longPressReported = true)
    (hdue : s.currentRepeatInterval ≤ wsub now s.lastRepeatTime) :
    isRepeating (update c s now p) = true ∧
    (update c s now p).lastRepeatTime =
      (s.lastRepeatTime + s.currentRepeatInterval) % M32 := by
  rw [update_go hns]
  rw [edgePhase_same (by simpa [clearFlags] using hraw)]
  rw [debounceExit_not (by simpa [clearFlags] using hnd)]
  rw [holdPhase_go (by simpa [clearFlags] using hnd) (by simpa [clearFlags] using hcp)]
  rw [longPressPhase_guard (by simpa [clearFlags] using hrep)]
  rw [repeatPhase_fire (by simpa [clearFlags] using hact) (by simpa [clearFlags] using hdue)]
  refine ⟨?_, ?_⟩
  · rw [isRepeating, (accelPhase_preserves _ _ _).1]
  · rw [(accelPhase_preserves _ _ _).2.1]
    simp [clearFlags]

/-- A mid-long-press state (press edge at t=1, long press fired at t=801,
as in the worked example of the specification). -/
def sHoldW : BState :=
  { currentRepeatInterval := 100
    lastUpdateTime := 904
    edgeTime := 1
    lastRepeatTime := 801
    lastAccelUpdate := 801
    rawState := true
    debouncing := false
    currentPressed := true
    longPressActive := true
    shortPressDetected := false
    releaseDetected := false
    longPressDetected := false
    longReleaseDetected := false
    repeatTriggered := false
    longPressReported := true }

theorem claim4_witness :
    LOOP_INTERVAL_MS ≤ wsub 905 sHoldW.lastUpdateTime ∧
    sHoldW.debouncing = false ∧ sHoldW.currentPressed = true ∧
    sHoldW.longPressActive = true ∧ sHoldW.longPressReported = true ∧
    sHoldW.currentRepeatInterval ≤ wsub 905 sHoldW.lastRepeatTime ∧
    isRepeating (update cfgW sHoldW 905 true) = true ∧
    (update cfgW sHoldW 905 true).lastRepeatTime =
      (sHoldW.lastRepeatTime + sHoldW.currentRepeatInterval) % M32 := by
  refine ⟨by decide, by decide, by decide, by decide, by decide, by decide, ?_, ?_⟩
  · exact (claim4_repeat_advances_by_interval cfgW sHoldW 905 true (by decide) (by decide)
      (by decide) (by decide) (by decide) (by decide) (by decide)).1
  · exact (claim4_repeat_advances_by_interval cfgW sHoldW 905 true (by decide) (by decide)
      (by decide) (by decide) (by decide) (by decide) (by decide)).2

/-! ### C7: acceleration steps -/

/-- C7: on a non-skipped steady poll while out of debounce, pressed and
long-press active (guard set), once at least 1000 ms have elapsed since the
last acceleration timestamp the current repeat interval decreases by the
acceleration step, floored at the configured minimum (never below it, even
when the step exceeds the interval), and the acceleration timestamp is reset
to `now` on each such step — so steps occur at most once per elapsed second.
The code skips the whole step (including the timestamp reset) when the
interval has already reached the floor, where the claimed decrease would be
a no-op. -/
theorem claim7_acceleration_floored
    (c : Config) (s : BState) (now : Nat) (p : Bool)
    (hns : LOOP_INTERVAL_MS ≤ wsub now s.lastUpdateTime)
    (hraw : p = s.rawState) (hnd : s.debouncing = false)
    (hcp : s.currentPressed = true) (hact : s.longPressActive = true)
    (hrep : s.longPressReported = true)
    (hdue : 1000 ≤ wsub now s.lastAccelUpdate) :
    (update c s now p).currentRepeatInterval =
      (if c.repeatIntervalMin < s.currentRepeatInterval then
        max (s.currentRepeatInterval - c.acceleration) c.repeatIntervalMin
      else s.currentRepeatInterval) ∧
    (c.repeatIntervalMin ≤ s.currentRepeatInterval →
      c.repeatIntervalMin ≤ (update c s now p).currentRepeatInterval) ∧
    (update c s now p).lastAccelUpdate =
      (if c.repeatIntervalMin < s.currentRepeatInterval then now
       else s.lastAccelUpdate) := by
  rw [update_go hns]
  rw [edgePhase_same (by simpa [clearFlags] using hraw)]
  rw [debounceExit_not (by simpa [clearFlags] using hnd)]
  rw [holdPhase_go (by simpa [clearFlags] using hnd) (by simpa [clearFlags] using hcp)]
  rw [longPressPhase_guard (by simpa [clearFlags] using hrep)]
  have hA : (repeatPhase now { clearFlags s with
      lastUpdateTime := now }).longPressActive = true := by
    rw [(repeatPhase_preserves _ _).2.2.2.1]
    simpa [clearFlags] using hact
  have hCI : (repeatPhase now { clearFlags s with
      lastUpdateTime := now }).currentRepeatInterval = s.currentRepeatInterval := by
    rw [(repeatPhase_preserves _ _).1]
    simp [clearFlags]
  have hLA : (repeatPhase now { clearFlags s with
      lastUpdateTime := now }).lastAccelUpdate = s.lastAccelUpdate := by
    rw [(repeatPhase_preserves _ _).2.1]
    simp [clearFlags]
  by_cases hmin : c.repeatIntervalMin < s.currentRepeatInterval
  · rw [accelPhase_fire hA (by rw [hLA]; exact hdue) (by rw [hCI]; exact hmin)]
    refine ⟨?_, ?_, ?_⟩
    · simp [hCI, hmin]
    · intro h
      exact le_max_right _ _
    · simp [hmin]
  · rw [accelPhase_floor (by rw [hCI]; exact hmin)]
    refine ⟨?_, ?_, ?_⟩
    · simp [hCI, hmin]
    · intro h
      rw [hCI]
      exact h
    · simp [hLA, hmin]

theorem claim7_witness :
    LOOP_INTERVAL_MS ≤ wsub 1801 sHoldW.lastUpdateTime ∧
    sHoldW.debouncing = false ∧ sHoldW.currentPressed = true ∧
    sHoldW.longPressActive = true ∧ sHoldW.longPressReported = true ∧
    1000 ≤ wsub 1801 sHoldW.lastAccelUpdate ∧
    (update cfgW sHoldW 1801 true).currentRepeatInterval =
      (if cfgW.repeatIntervalMin < sHoldW.currentRepeatInterval then
        max (sHoldW.currentRepeatInterval - cfgW.acceleration) cfgW.repeatIntervalMin
      else sHoldW.currentRepeatInterval) ∧
    (update cfgW sHoldW 1801 true).lastAccelUpdate =
      (if cfgW.repeatIntervalMin < sHoldW.currentRepeatInterval then 1801
       else sHoldW.lastAccelUpdate) := by
  refine ⟨by decide, by decide, by decide, by decide, by decide, by decide, ?_, ?_⟩
  · exact (claim7_acceleration_floored cfgW sHoldW 1801 true (by decide) (by decide)
      (by decide) (by decide) (by decide) (by decide) (by decide)).1
  · exact (claim7_acceleration_floored cfgW sHoldW 1801 true (by decide) (by decide)
      (by decide) (by decide) (by decide) (by decide) (by decide)).2.2

/-! ### C6: debounce window gates edges -/

/-- C6: while a debounce is in progress, any poll made less than the debounce
window after the recorded edge timestamp fires no edge event (short-press and
release both read false) and leaves the machine debouncing; once the elapsed
time since the edge timestamp reaches the window, a non-skipped poll ends the
debounce (the edge branch is evaluated before the exit, so a new edge can
only be accepted on a later poll). -/
theorem claim6_bounce_suppressed
    (c : Config) (s : BState) (now : Nat) (p : Bool)
    (hdeb : s.debouncing = true) :
    (wsub now s.edgeTime < c.debounceTime →
      isShortPressed (update c s now p) = false ∧
      isReleased (update c s now p) = false ∧
      (update c s now p).debouncing = true) ∧
    (c.debounceTime ≤ wsub now s.edgeTime →
      LOOP_INTERVAL_MS ≤ wsub now s.lastUpdateTime →
      (update c s now p).debouncing = false) := by
  constructor
  · intro hlt
    by_cases hskip : wsub now s.lastUpdateTime < LOOP_INTERVAL_MS
    · simp [update_skip hskip, clearFlags, isShortPressed, isReleased, hdeb]
    · rw [update_go (Nat.not_lt.mp hskip)]
      rw [edgePhase_deb (by simpa [clearFlags] using hdeb)]
      rw [debounceExit_stay (by simpa [clearFlags] using hlt)]
      rw [holdPhase_skip_deb (by simpa [clearFlags] using hdeb)]
      simp [isShortPressed, isReleased, clearFlags, hdeb]
  · intro hge hns
    rw [update_go hns]
    rw [edgePhase_deb (by simpa [clearFlags] using hdeb)]
    rw [debounceExit_clear (by simpa [clearFlags] using hdeb)
      (by simpa [clearFlags] using hge)]
    rw [(holdPhase_preserves _ _ _).2.2.2.1]

/-- A mid-debounce state: edge recorded at t=10, still bouncing. -/
def sDebW : BState :=
  { currentRepeatInterval := 100
    lastUpdateTime := 12
    edgeTime := 10
    lastRepeatTime := 10
    lastAccelUpdate := 10
    rawState := true
    debouncing := true
    currentPressed := true
    longPressActive := false
    shortPressDetected := false
    releaseDetected := false
    longPressDetected := false
    longReleaseDetected := false
    repeatTriggered := false
    longPressReported := false }

theorem claim6_witness :
    sDebW.debouncing = true ∧
    (wsub 15 sDebW.edgeTime < cfgW.debounceTime →
      isShortPressed (update cfgW sDebW 15 false) = false ∧
      isReleased (update cfgW sDebW 15 false) = false ∧
      (update cfgW sDebW 15 false).debouncing = true) ∧
    (cfgW.debounceTime ≤ wsub 15 sDebW.edgeTime →
      LOOP_INTERVAL_MS ≤ wsub 15 sDebW.lastUpdateTime →
      (update cfgW sDebW 15 false).debouncing = false) := by
  exact ⟨by decide, (claim6_bounce_suppressed cfgW sDebW 15 false (by decide)).1,
    (claim6_bounce_suppressed cfgW sDebW 15 false (by decide)).2⟩

/-! ### C10: at most one edge direction per poll -/

/-- C10: after any single `update()` call, `isShortPressed()` and
`isReleased()` are never both true — the edge branch of one poll reports at
most one edge direction. -/
theorem claim10_one_edge_direction_per_poll
    (c : Config) (s : BState) (now : Nat) (p : Bool) :
    ¬(isShortPressed (update c s now p) = true ∧
      isReleased (update c s now p) = true) := by
  by_cases hskip : wsub now s.lastUpdateTime < LOOP_INTERVAL_MS
  · simp [update_skip hskip, clearFlags, isShortPressed, isReleased]
  · rw [update_go (Nat.not_lt.mp hskip)]
    rw [isShortPressed, isReleased,
      (holdPhase_preserves _ _ _).2.2.2.2.2.1,
      (holdPhase_preserves _ _ _).2.2.2.2.2.2.1,
      (debounceExit_preserves _ _ _).1, (debounceExit_preserves _ _ _).2.1]
    unfold edgePhase
    repeat' split
    all_goals simp [clearFlags]

/-! ### C8: wraparound-safe timestamp arithmetic

The reference machine below follows the specification's words: timestamps are
true (unbounded) monotonic instants and every elapsed-time test is the exact
difference `now - timestamp`.  C8 is the refinement: running the real
`update` on uint32-wrapped clock values takes the same branches and produces
the wrapped image of the reference state, provided every true elapsed time is
below `2^32` ms. -/

/-- Ideal-clock edge detection (specification of OptaButton.cpp lines 94-113
over unbounded time). -/
def edgePhaseI (c : Config) (now : Nat) (pressed : Bool) (s : BState) : BState :=
  if pressed ≠ s.rawState ∧ s.debouncing = false then
    if pressed then
      { s with rawState := pressed
               debouncing := true
               edgeTime := now
               shortPressDetected := true
               currentPressed := true
               longPressActive := false
               currentRepeatInterval := c.repeatIntervalStart
               lastRepeatTime := now
               lastAccelUpdate := now }
    else
      { s with rawState := pressed
               debouncing := true
               edgeTime := now
               releaseDetected := true
               longReleaseDetected := s.longPressActive
               currentPressed := false
               longPressActive := false
               longPressReported := false }
  else s

/-- Ideal-clock debounce exit (lines 116-118 over unbounded time). -/
def debounceExitPhaseI (c : Config) (now : Nat) (s : BState) : BState :=
  if s.debouncing = true ∧ c.debounceTime ≤ now - s.edgeTime then
    { s with debouncing := false }
  else s

/-- Ideal-clock long-press detection (lines 123-129 over unbounded time). -/
def longPressPhaseI (c : Config) (now : Nat) (s : BState) : BState :=
  if s.longPressReported = false ∧ c.longPressThreshold ≤ now - s.edgeTime then
    { s with longPressDetected := true
             longPressActive := true
             longPressReported := true
             lastRepeatTime := now
             lastAccelUpdate := now }
  else s

/-- Ideal-clock repeat firing (lines 132-135 over unbounded time). -/
def repeatPhaseI (now : Nat) (s : BState) : BState :=
  if s.longPressActive = true ∧ s.currentRepeatInterval ≤ now - s.lastRepeatTime then
    { s with repeatTriggered := true
             lastRepeatTime := s.lastRepeatTime + s.currentRepeatInterval }
  else s

/-- Ideal-clock acceleration (lines 138-146 over unbounded time). -/
def accelPhaseI (c : Config) (now : Nat) (s : BState) : BState :=
  if s.longPressActive = true ∧ 1000 ≤ now - s.lastAccelUpdate
      ∧ c.repeatIntervalMin < s.currentRepeatInterval then
    { s with currentRepeatInterval :=
               max (s.currentRepeatInterval - c.acceleration) c.repeatIntervalMin
             lastAccelUpdate := now }
  else s

/-- Ideal-clock hold block (lines 121-147 over unbounded time). -/
def holdPhaseI (c : Config) (now : Nat) (s : BState) : BState :=
  if s.debouncing = false ∧ s.currentPressed = true then
    accelPhaseI c now (repeatPhaseI now (longPressPhaseI c now s))
  else s

/-- Ideal-clock `update()` over unbounded monotonic time, the specification's
reference for the wraparound claim. -/
def updateIdeal (c : Config) (s : BState) (now : Nat) (pressed : Bool) : BState :=
  let s0 := clearFlags s
  if now - s0.lastUpdateTime < LOOP_INTERVAL_MS then s0
  else
    holdPhaseI c now
      (debounceExitPhaseI c now
        (edgePhaseI c now pressed { s0 with lastUpdateTime := now }))

/-- Project an ideal (unbounded-time) state onto the uint32 machine state:
the four timestamp fields are reduced modulo `2^32`. -/
def wrapState (s : BState) : BState :=
  { s with lastUpdateTime := s.lastUpdateTime % M32
           edgeTime := s.edgeTime % M32
           lastRepeatTime := s.lastRepeatTime % M32
           lastAccelUpdate := s.lastAccelUpdate % M32 }

theorem wrap_clearFlags (s : BState) :
    clearFlags (wrapState s) = wrapState (clearFlags s) := rfl

theorem wrap_edgePhase (c : Config) (now : Nat) (p : Bool) (s : BState) :
    edgePhase c (now % M32) p (wrapState s) = wrapState (edgePhaseI c now p s) := by
  unfold edgePhase edgePhaseI
  by_cases h : p ≠ s.rawState ∧ s.debouncing = false
  · rw [if_pos (by simpa [wrapState] using h), if_pos h]
    cases p
    · simp [wrapState]
    · simp [wrapState]
  · rw [if_neg (by simpa [wrapState] using h), if_neg h]

theorem wrap_debounceExitPhase (c : Config) (now : Nat) (s : BState)
    (h1 : s.edgeTime ≤ now) (h2 : now - s.edgeTime < M32) :
    debounceExitPhase c (now % M32) (wrapState s) =
      wrapState (debounceExitPhaseI c now s) := by
  unfold debounceExitPhase debounceExitPhaseI
  have hw : wsub (now % M32) (wrapState s).edgeTime = now - s.edgeTime := by
    show wsub (now % M32) (s.edgeTime % M32) = now - s.edgeTime
    exact wsub_wrap h1 h2
  by_cases h : s.debouncing = true ∧ c.debounceTime ≤ now - s.edgeTime
  · rw [if_pos (by rw [hw]; simpa [wrapState] using h), if_pos h]
    simp [wrapState]
  · rw [if_neg (by rw [hw]; simpa [wrapState] using h), if_neg h]

theorem wrap_longPressPhase (c : Config) (now : Nat) (s : BState)
    (h1 : s.edgeTime ≤ now) (h2 : now - s.edgeTime < M32) :
    longPressPhase c (now % M32) (wrapState s) =
      wrapState (longPressPhaseI c now s) := by
  unfold longPressPhase longPressPhaseI
  have hw : wsub (now % M32) (wrapState s).edgeTime = now - s.edgeTime := by
    show wsub (now % M32) (s.edgeTime % M32) = now - s.edgeTime
    exact wsub_wrap h1 h2
  by_cases h : s.longPressReported = false ∧ c.longPressThreshold ≤ now - s.edgeTime
  · rw [if_pos (by rw [hw]; simpa [wrapState] using h), if_pos h]
    simp [wrapState]
  · rw [if_neg (by rw [hw]; simpa [wrapState] using h), if_neg h]

theorem wrap_repeatPhase (now : Nat) (s : BState)
    (h1 : s.lastRepeatTime ≤ now) (h2 : now - s.lastRepeatTime < M32) :
    repeatPhase (now % M32) (wrapState s) = wrapState (repeatPhaseI now s) := by
  unfold repeatPhase repeatPhaseI
  have hw : wsub (now % M32) (wrapState s).lastRepeatTime = now - s.lastRepeatTime := by
    show wsub (now % M32) (s.lastRepeatTime % M32) = now - s.lastRepeatTime
    exact wsub_wrap h1 h2
  by_cases h : s.longPressActive = true ∧ s.currentRepeatInterval ≤ now - s.lastRepeatTime
  · rw [if_pos (by rw [hw]; simpa [wrapState] using h), if_pos h]
    simp [wrapState, Nat.mod_add_mod]
  · rw [if_neg (by rw [hw]; simpa [wrapState] using h), if_neg h]

theorem wrap_accelPhase (c : Config) (now : Nat) (s : BState)
    (h1 : s.lastAccelUpdate ≤ now) (h2 : now - s.lastAccelUpdate < M32) :
    accelPhase c (now % M32) (wrapState s) = wrapState (accelPhaseI c now s) := by
  unfold accelPhase accelPhaseI
  have hw : wsub (now % M32) (wrapState s).lastAccelUpdate = now - s.lastAccelUpdate := by
    show wsub (now % M32) (s.lastAccelUpdate % M32) = now - s.lastAccelUpdate
    exact wsub_wrap h1 h2
  by_cases h : s.longPressActive = true ∧ 1000 ≤ now - s.lastAccelUpdate
      ∧ c.repeatIntervalMin < s.currentRepeatInterval
  · rw [if_pos (by rw [hw]; simpa [wrapState] using h), if_pos h]
    simp [wrapState]
  · rw [if_neg (by rw [hw]; simpa [wrapState] using h), if_neg h]

theorem longPressPhaseI_times (c : Config) (now : Nat) (s : BState) :
    ((longPressPhaseI c now s).lastRepeatTime = s.lastRepeatTime ∨
      (longPressPhaseI c now s).lastRepeatTime = now) ∧
    ((longPressPhaseI c now s).lastAccelUpdate = s.lastAccelUpdate ∨
      (longPressPhaseI c now s).lastAccelUpdate = now) := by
  unfold longPressPhaseI
  split
  · simp
  · simp

theorem repeatPhaseI_lastAccelUpdate (now : Nat) (s : BState) :
    (repeatPhaseI now s).lastAccelUpdate = s.lastAccelUpdate := by
  unfold repeatPhaseI
  split
  · simp
  · rfl

theorem wrap_holdPhase (c : Config) (now : Nat) (s : BState)
    (h1 : s.edgeTime ≤ now) (h2 : now - s.edgeTime < M32)
    (h3 : s.lastRepeatTime ≤ now) (h4 : now - s.lastRepeatTime < M32)
    (h5 : s.lastAccelUpdate ≤ now) (h6 : now - s.lastAccelUpdate < M32) :
    holdPhase c (now % M32) (wrapState s) = wrapState (holdPhaseI c now s) := by
  unfold holdPhase holdPhaseI
  by_cases h : s.debouncing = false ∧ s.currentPressed = true
  · rw [if_pos (by simpa [wrapState] using h), if_pos h]
    rw [wrap_longPressPhase c now s h1 h2]
    have hM : (0 : Nat) < M32 := by decide
    have hlr : (longPressPhaseI c now s).lastRepeatTime ≤ now ∧
        now - (longPressPhaseI c now s).lastRepeatTime < M32 := by
      rcases (longPressPhaseI_times c now s).1 with h' | h' <;> rw [h']
      · exact ⟨h3, h4⟩
      · omega
    rw [wrap_repeatPhase now _ hlr.1 hlr.2]
    have hla : (repeatPhaseI now (longPressPhaseI c now s)).lastAccelUpdate ≤ now ∧
        now - (repeatPhaseI now (longPressPhaseI c now s)).lastAccelUpdate < M32 := by
      rw [repeatPhaseI_lastAccelUpdate]
      rcases (longPressPhaseI_times c now s).2 with h' | h' <;> rw [h']
      · exact ⟨h5, h6⟩
      · omega
    rw [wrap_accelPhase c now _ hla.1 hla.2]
  · rw [if_neg (by simpa [wrapState] using h), if_neg h]

theorem edgePhaseI_times (c : Config) (now : Nat) (p : Bool) (s : BState) :
    ((edgePhaseI c now p s).edgeTime = s.edgeTime ∨
      (edgePhaseI c now p s).edgeTime = now) ∧
    ((edgePhaseI c now p s).lastRepeatTime = s.lastRepeatTime ∨
      (edgePhaseI c now p s).lastRepeatTime = now) ∧
    ((edgePhaseI c now p s).lastAccelUpdate = s.lastAccelUpdate ∨
      (edgePhaseI c now p s).lastAccelUpdate = now) := by
  unfold edgePhaseI
  repeat' split
  all_goals simp

theorem debounceExitPhaseI_times (c : Config) (now : Nat) (s : BState) :
    (debounceExitPhaseI c now s).edgeTime = s.edgeTime ∧
    (debounceExitPhaseI c now s).lastRepeatTime = s.lastRepeatTime ∧
    (debounceExitPhaseI c now s).lastAccelUpdate = s.lastAccelUpdate := by
  unfold debounceExitPhaseI
  split
  · simp
  · simp

/-- C8: all four elapsed-time comparisons in `update()` are uint32
wraparound subtractions `now - timestamp`, so the machine driven by the
wrapped millisecond clock takes exactly the branches of the ideal
unbounded-clock machine and computes the wrapped image of its state, as long
as each true elapsed time stays below `2^32` ms.  In particular each
elapsed-time test yields the correct result across the clock's wraparound
through zero. -/
theorem claim8_wraparound_refinement
    (c : Config) (s : BState) (now : Nat) (p : Bool)
    (h1 : s.lastUpdateTime ≤ now) (h2 : now - s.lastUpdateTime < M32)
    (h3 : s.edgeTime ≤ now) (h4 : now - s.edgeTime < M32)
    (h5 : s.lastRepeatTime ≤ now) (h6 : now - s.lastRepeatTime < M32)
    (h7 : s.lastAccelUpdate ≤ now) (h8 : now - s.lastAccelUpdate < M32) :
    update c (wrapState s) (now % M32) p = wrapState (updateIdeal c s now p) := by
  unfold update updateIdeal
  have hw : wsub (now % M32) ((clearFlags (wrapState s)).lastUpdateTime) =
      now - (clearFlags s).lastUpdateTime := by
    show wsub (now % M32) (s.lastUpdateTime % M32) = now - s.lastUpdateTime
    exact wsub_wrap h1 h2
  by_cases hskip : now - (clearFlags s).lastUpdateTime < LOOP_INTERVAL_MS
  · rw [if_pos (by rw [hw]; exact hskip), if_pos hskip]
    exact wrap_clearFlags s
  · rw [if_neg (by rw [hw]; exact hskip), if_neg hskip]
    have hbase : ({ clearFlags (wrapState s) with lastUpdateTime := now % M32 } : BState) =
        wrapState { clearFlags s with lastUpdateTime := now } := rfl
    rw [hbase]
    rw [wrap_edgePhase c now p _]
    have hM : (0 : Nat) < M32 := by decide
    set t1 : BState := edgePhaseI c now p { clearFlags s with lastUpdateTime := now } with ht1
    have he : t1.edgeTime ≤ now ∧ now - t1.edgeTime < M32 := by
      rcases (edgePhaseI_times c now p _).1 with h' | h' <;> rw [ht1, h']
      · exact ⟨h3, h4⟩
      · omega
    rw [wrap_debounceExitPhase c now t1 he.1 he.2]
    set t2 : BState := debounceExitPhaseI c now t1 with ht2
    have hr : t1.lastRepeatTime ≤ now ∧ now - t1.lastRepeatTime < M32 := by
      rcases (edgePhaseI_times c now p _).2.1 with h' | h' <;> rw [ht1, h']
      · exact ⟨h5, h6⟩
      · omega
    have ha : t1.lastAccelUpdate ≤ now ∧ now - t1.lastAccelUpdate < M32 := by
      rcases (edgePhaseI_times c now p _).2.2 with h' | h' <;> rw [ht1, h']
      · exact ⟨h7, h8⟩
      · omega
    have hts := debounceExitPhaseI_times c now t1
    exact wrap_holdPhase c now t2
      (by rw [ht2, hts.1]; exact he.1) (by rw [ht2, hts.1]; exact he.2)
      (by rw [ht2, hts.2.1]; exact hr.1) (by rw [ht2, hts.2.1]; exact hr.2)
      (by rw [ht2, hts.2.2]; exact ha.1) (by rw [ht2, hts.2.2]; exact ha.2)

/-- A state whose timestamps sit just under the uint32 wrap point. -/
def sWrapW : BState :=
  { currentRepeatInterval := 100
    lastUpdateTime := 4294967290
    edgeTime := 4294966500
    lastRepeatTime := 4294967200
    lastAccelUpdate := 4294967000
    rawState := true
    debouncing := false
    currentPressed := true
    longPressActive := true
    shortPressDetected := false
    releaseDetected := false
    longPressDetected := false
    longReleaseDetected := false
    repeatTriggered := false
    longPressReported := true }

theorem claim8_witness :
    sWrapW.lastUpdateTime ≤ 4294967301 ∧ 4294967301 - sWrapW.lastUpdateTime < M32 ∧
    update cfgW (wrapState sWrapW) (4294967301 % M32) true =
      wrapState (updateIdeal cfgW sWrapW 4294967301 true) := by
  exact ⟨by decide, by decide,
    claim8_wraparound_refinement cfgW sWrapW 4294967301 true (by decide) (by decide)
      (by decide) (by decide) (by decide) (by decide) (by decide) (by decide)⟩

/-! ### C5: `readInput()` and the unclaimed-channel default -/

/-- `DefLab::ButtonInputMode`: the three hardware input modes. -/
inductive ButtonInputMode
  | GPIO
  | OPTA_CTL
  | EXP_DIG
deriving DecidableEq, Repr

/-- One slot of the expansion enumeration loop (OptaButton.cpp lines
167-187): the controller may expose a mechanical expansion and/or a
solid-state expansion at this index; a present expansion answers
`digitalRead` per channel. -/
structure ExpSlot where
  mech : Option (Nat → Bool)
  solid : Option (Nat → Bool)

/-- The expansion scan of `readInput()` in EXP_DIG mode (OptaButton.cpp
lines 167-187): walk the slots; the first slot with a mechanical expansion
(else a solid-state one) is read and the loop breaks; if no slot has either,
`raw` keeps its initial `false`. -/
def readRawExp (inputID : Nat) : List ExpSlot → Bool
  | [] => false
  | slot :: rest =>
    match slot.mech with
    | some chans => chans inputID
    | none =>
      match slot.solid with
      | some chans => chans inputID
      | none => readRawExp inputID rest

/-- `OptaButton::readInput()` (OptaButton.cpp lines 151-192), value part:
`digitalHigh pin` models `digitalRead(pin) == HIGH`; GPIO mode is
active-LOW, OPTA_CTL active-HIGH, EXP_DIG scans the expansion slots; the
inversion flag is applied last (`invertedLogic ? !raw : raw`, line 191). -/
def readInput (mode : ButtonInputMode) (inputID : Nat) (invertedLogic : Bool)
    (digitalHigh : Nat → Bool) (slots : List ExpSlot) : Bool :=
  let raw : Bool :=
    match mode with
    | ButtonInputMode.GPIO => !digitalHigh inputID
    | ButtonInputMode.OPTA_CTL => digitalHigh inputID
    | ButtonInputMode.EXP_DIG => readRawExp inputID slots
  if invertedLogic then !raw else raw

/-- C5 counterexample: an EXP_DIG button with the inversion flag set and no
expansion module present reads `true` (pressed) — the default `raw = false`
is inverted on the way out (OptaButton.cpp line 191) — refuting the claim
that an unclaimed channel reads not-pressed even when inversion is set. -/
theorem claim5_counterexample :
    readInput ButtonInputMode.EXP_DIG 3 true (fun _ => false) [] = true := rfl

/-- C5 (amended): when no enumerated expansion module claims the channel,
the raw reading defaults to not-pressed, and `readInput()` returns exactly
the inversion flag: not-pressed when inversion is unset, pressed when it is
set (the inversion is applied to the defaulted reading). -/
theorem claim5_unclaimed_channel_default
    (inputID : Nat) (inverted : Bool) (digitalHigh : Nat → Bool)
    (slots : List ExpSlot)
    (h : ∀ slot ∈ slots, slot.mech = none ∧ slot.solid = none) :
    readInput ButtonInputMode.EXP_DIG inputID inverted digitalHigh slots = inverted := by
  have hraw : readRawExp inputID slots = false := by
    induction slots with
    | nil => rfl
    | cons a l ih =>
      obtain ⟨hm, hs⟩ := h a (by simp)
      rw [readRawExp, hm, hs]
      exact ih (fun t ht => h t (by simp [ht]))
  rw [readInput, hraw]
  cases inverted <;> rfl

theorem claim5_witness :
    (∀ slot ∈ ([⟨none, none⟩] : List ExpSlot), slot.mech = none ∧ slot.solid = none) ∧
    readInput ButtonInputMode.EXP_DIG 3 false (fun _ => true) [⟨none, none⟩] = false := by
  have h : ∀ slot ∈ ([⟨none, none⟩] : List ExpSlot),
      slot.mech = none ∧ slot.solid = none := by
    intro t ht
    simp only [List.mem_singleton] at ht
    subst ht
    exact ⟨rfl, rfl⟩
  exact ⟨h, claim5_unclaimed_channel_default 3 false (fun _ => true) [⟨none, none⟩] h⟩

/-! ### C9: the shared refresh generation -/

/-- The token advance in `update()` (OptaButton.cpp lines 83-88): if `now`
differs from the shared `lastTokenMs`, increment the shared uint32
`g_optaExpRefreshToken` and record the tick.  Both variables are shared by
all buttons (a file-scope global and a function-local static).  Input and
output are the pair `(g_optaExpRefreshToken, lastTokenMs)`. -/
def tokenStep (now : Nat) (g lastTokenMs : Nat) : Nat × Nat :=
  if now ≠ lastTokenMs then ((g + 1) % M32, now) else (g, lastTokenMs)

/-- Fold `tokenStep` over the `millis()` values of successive non-skipped
`update()` calls (across all button instances, which share the pair). -/
def tokenRun : Nat × Nat → List Nat → Nat × Nat
  | p, [] => p
  | p, t :: ts => tokenRun (tokenStep t p.1 p.2) ts

/-- Modelled from the spec: the refresh gating of `readInput()` in EXP_DIG
mode.  The source (OptaButton.cpp lines 172 and 180) compares the shared
token against `lastRefreshToken`, an identifier declared nowhere in the
repository — the static declared at line 164 is `lastExpRefreshToken` — so
the expansion branch does not compile on OPTA builds.  Following the
specification ("compare a locally cached last-seen RefreshGeneration value
against the shared RefreshGeneration — if they differ, invoke the module's
refresh-inputs operation once and update the cached value") and the clearly
intended declared static, the gate refreshes the first matching module only
when the cached token differs from the shared one, then records it.  Result:
(raw reading, new cached token, whether a refresh was performed). -/
def expReadGated (inputID : Nat) (g cached : Nat) : List ExpSlot → Bool × Nat × Bool
  | [] => (false, cached, false)
  | slot :: rest =>
    match slot.mech with
    | some chans =>
      if g ≠ cached then (chans inputID, g, true) else (chans inputID, cached, false)
    | none =>
      match slot.solid with
      | some chans =>
        if g ≠ cached then (chans inputID, g, true) else (chans inputID, cached, false)
      | none => expReadGated inputID g cached rest

/-- Run a sequence of gated expansion reads (one per polling EXP_DIG button,
channel ids in `ids`) under one fixed token generation `g`, threading the
shared cached token; returns (total number of refreshes, final cached
token). -/
def runReads (g : Nat) (slots : List ExpSlot) : Nat → List Nat → Nat × Nat
  | cached, [] => (0, cached)
  | cached, id :: rest =>
    let r := expReadGated id g cached slots
    let rec' := runReads g slots r.2.1 rest
    ((if r.2.2 then 1 else 0) + rec'.1, rec'.2)

theorem tokenStep_idem (now g m : Nat) :
    tokenStep now (tokenStep now g m).1 (tokenStep now g m).2 = tokenStep now g m := by
  unfold tokenStep
  by_cases h : now = m
  · simp [h]
  · simp [h]

theorem expReadGated_refresh_cached (inputID g cached : Nat) (slots : List ExpSlot) :
    ((expReadGated inputID g cached slots).2.2 = true →
      (expReadGated inputID g cached slots).2.1 = g) ∧
    (cached = g →
      (expReadGated inputID g cached slots).2.2 = false ∧
      (expReadGated inputID g cached slots).2.1 = cached) := by
  induction slots with
  | nil => simp [expReadGated]
  | cons a l ih =>
    rw [expReadGated]
    match hm : a.mech with
    | some chans =>
      by_cases h : g = cached
      · simp [h]
      · simp [Ne.symm h, h]
    | none =>
      match hs : a.solid with
      | some chans =>
        by_cases h : g = cached
        · simp [h]
        · simp [Ne.symm h, h]
      | none => exact ih

theorem runReads_cached (g : Nat) (slots : List ExpSlot) (ids : List Nat) :
    (runReads g slots g ids).1 = 0 ∧ (runReads g slots g ids).2 = g := by
  induction ids with
  | nil => simp [runReads]
  | cons i rest ih =>
    rw [runReads]
    have hc := (expReadGated_refresh_cached i g g slots).2 rfl
    rw [hc.1, hc.2]
    simpa using ih

theorem runReads_le_one (g : Nat) (slots : List ExpSlot) (cached : Nat)
    (ids : List Nat) : (runReads g slots cached ids).1 ≤ 1 := by
  induction ids generalizing cached with
  | nil => simp [runReads]
  | cons i rest ih =>
    rw [runReads]
    by_cases hr : (expReadGated i g cached slots).2.2 = true
    · have hg := (expReadGated_refresh_cached i g cached slots).1 hr
      rw [hr, hg]
      have h0 := (runReads_cached g slots rest).1
      simp [h0]
    · rw [Bool.not_eq_true] at hr
      rw [hr]
      simpa using ih ((expReadGated i g cached slots).2.1)

/-- C9: (token half, from OptaButton.cpp lines 83-88) once one non-skipped
`update()` has advanced the shared token at a given tick, every further
non-skipped `update()` within that same tick leaves the pair unchanged, so
all buttons polling within one tick observe the same generation value and
the token advances at most once per distinct tick; (refresh half, from the
spec-modelled gate `expReadGated`) within one fixed generation, any sequence
of gated expansion reads performs at most one bus refresh, and none at all
if the cached token already matches. -/
theorem claim9_refresh_generation
    (now g m : Nat) (l : List Nat) (hl : ∀ t ∈ l, t = now)
    (g2 cached : Nat) (slots : List ExpSlot) (ids : List Nat) :
    tokenRun (tokenStep now g m) l = tokenStep now g m ∧
    (runReads g2 slots cached ids).1 ≤ 1 ∧
    (cached = g2 → (runReads g2 slots cached ids).1 = 0) := by
  refine ⟨?_, runReads_le_one g2 slots cached ids, ?_⟩
  · induction l with
    | nil => rfl
    | cons t ts ih =>
      have ht : t = now := hl t (by simp)
      rw [tokenRun, ht, tokenStep_idem]
      exact ih (fun u hu => hl u (by simp [hu]))
  · intro hcg
    subst hcg
    exact (runReads_cached cached slots ids).1

/-- A two-slot expansion environment: a mechanical module at slot 0. -/
def slotsW : List ExpSlot := [⟨some (fun ch => ch == 2), none⟩, ⟨none, none⟩]

/-! ### C2: press-hold-release cycles

The claim quantifies over runs with "polls frequent enough"; we realize the
run with one poll per millisecond: `runUpTo cfg inp s0 i` is the state after
polling at times `1, 2, ..., i` with raw input `inp`.  The phase predicates
below describe the reachable shapes of the state during a press-hold-release
cycle; fields irrelevant to the event flags (the repeat/acceleration timers)
are left unconstrained. -/

/-- The trace of states: one `update()` per millisecond at times 1..i. -/
def runUpTo (cfg : Config) (inp : Nat → Bool) (s0 : BState) : Nat → BState
  | 0 => s0
  | i + 1 => update cfg (runUpTo cfg inp s0 i) (i + 1) (inp (i + 1))

/-- None of the four edge/long-press event flags is set. -/
def noEv (s : BState) : Prop :=
  s.shortPressDetected = false ∧ s.releaseDetected = false ∧
  s.longPressDetected = false ∧ s.longReleaseDetected = false

/-- Released, out of debounce, guard clear: ready to accept a press edge. -/
def ReadyAt (t : Nat) (s : BState) : Prop :=
  s.lastUpdateTime = t ∧ s.rawState = false ∧ s.debouncing = false ∧
  s.currentPressed = false ∧ s.longPressActive = false ∧
  s.longPressReported = false

/-- Pressed since the edge at time `a`, long press not yet fired. -/
def Holding (a t : Nat) (cfg : Config) (s : BState) : Prop :=
  s.lastUpdateTime = t ∧ s.rawState = true ∧ s.currentPressed = true ∧
  s.longPressActive = false ∧ s.longPressReported = false ∧ s.edgeTime = a ∧
  s.debouncing = decide (t - a < cfg.debounceTime)

/-- Pressed since the edge at time `a`, long press fired (guard set). -/
def LongHold (a t : Nat) (s : BState) : Prop :=
  s.lastUpdateTime = t ∧ s.rawState = true ∧ s.debouncing = false ∧
  s.currentPressed = true ∧ s.longPressActive = true ∧
  s.longPressReported = true ∧ s.edgeTime = a

/-- Released since the edge at time `b`, possibly still debouncing. -/
def Cooling (b t : Nat) (cfg : Config) (s : BState) : Prop :=
  s.lastUpdateTime = t ∧ s.rawState = false ∧ s.currentPressed = false ∧
  s.longPressActive = false ∧ s.longPressReported = false ∧ s.edgeTime = b ∧
  s.debouncing = decide (t - b < cfg.debounceTime)

theorem ready_init (cfg : Config) : ReadyAt 0 (initState cfg) :=
  ⟨rfl, rfl, rfl, rfl, rfl, rfl⟩

/-- Once the debounce window has elapsed, the exit phase leaves `debouncing`
false whether or not it was set. -/
theorem debounceExit_ge {c : Config} {now : Nat} {s : BState}
    (h2 : c.debounceTime ≤ wsub now s.edgeTime) :
    debounceExitPhase c now s = { s with debouncing := false } := by
  cases hd : s.debouncing
  · rw [debounceExit_not hd, ← hd]
  · exact debounceExit_clear hd h2

/-- Fields untouched by the repeat-then-acceleration tail of the hold
block. -/
theorem holdTail_fields (cfg : Config) (now : Nat) (R : BState) :
    (accelPhase cfg now (repeatPhase now R)).lastUpdateTime = R.lastUpdateTime ∧
    (accelPhase cfg now (repeatPhase now R)).edgeTime = R.edgeTime ∧
    (accelPhase cfg now (repeatPhase now R)).rawState = R.rawState ∧
    (accelPhase cfg now (repeatPhase now R)).debouncing = R.debouncing ∧
    (accelPhase cfg now (repeatPhase now R)).currentPressed = R.currentPressed ∧
    (accelPhase cfg now (repeatPhase now R)).longPressActive = R.longPressActive ∧
    (accelPhase cfg now (repeatPhase now R)).longPressReported = R.longPressReported ∧
    (accelPhase cfg now (repeatPhase now R)).shortPressDetected = R.shortPressDetected ∧
    (accelPhase cfg now (repeatPhase now R)).releaseDetected = R.releaseDetected ∧
    (accelPhase cfg now (repeatPhase now R)).longPressDetected = R.longPressDetected ∧
    (accelPhase cfg now (repeatPhase now R)).longReleaseDetected = R.longReleaseDetected := by
  unfold accelPhase repeatPhase
  repeat' split
  all_goals simp

/-- Idle step: released and ready, raw input still released. -/
theorem step_ready_idle {cfg : Config} {s : BState} {t : Nat}
    (h : ReadyAt t s) (hM : t + 1 < M32) :
    ReadyAt (t + 1) (update cfg s (t + 1) false) ∧
    noEv (update cfg s (t + 1) false) := by
  obtain ⟨hu, hr, hd, hcp, hla, hrep⟩ := h
  have hns : LOOP_INTERVAL_MS ≤ wsub (t + 1) s.lastUpdateTime := by
    rw [hu, wsub_sub (Nat.le_succ t) hM]
    simp [LOOP_INTERVAL_MS]
  rw [update_go hns]
  rw [edgePhase_same (by simp [clearFlags, hr])]
  rw [debounceExit_not (by simp [clearFlags, hd])]
  rw [holdPhase_skip_up (by simp [clearFlags, hcp])]
  refine ⟨⟨?_, ?_, ?_, ?_, ?_, ?_⟩, ?_, ?_, ?_, ?_⟩ <;>
    simp [clearFlags, hr, hd, hcp, hla, hrep]

/-- Press-edge step from a ready state. -/
theorem step_ready_press {cfg : Config} {s : BState} {t : Nat}
    (h : ReadyAt t s) (hM : t + 1 < M32) (hdb : 0 < cfg.debounceTime) :
    Holding (t + 1) (t + 1) cfg (update cfg s (t + 1) true) ∧
    (update cfg s (t + 1) true).shortPressDetected = true ∧
    (update cfg s (t + 1) true).releaseDetected = false ∧
    (update cfg s (t + 1) true).longPressDetected = false ∧
    (update cfg s (t + 1) true).longReleaseDetected = false := by
  obtain ⟨hu, hr, hd, hcp, hla, hrep⟩ := h
  have hns : LOOP_INTERVAL_MS ≤ wsub (t + 1) s.lastUpdateTime := by
    rw [hu, wsub_sub (Nat.le_succ t) hM]
    simp [LOOP_INTERVAL_MS]
  rw [update_go hns]
  rw [edgePhase_press (by simp [clearFlags, hr]) (by simp [clearFlags, hd])]
  rw [debounceExit_stay (by simp [wsub_self, hdb])]
  rw [holdPhase_skip_deb (by simp)]
  refine ⟨⟨?_, ?_, ?_, ?_, ?_, ?_, ?_⟩, ?_, ?_, ?_, ?_⟩ <;>
    simp [clearFlags, hrep, hdb]

/-- Steady pressed step before the long-press threshold. -/
theorem step_holding {cfg : Config} {s : BState} {a t : Nat}
    (h : Holding a t cfg s) (hat : a ≤ t) (hM : t + 1 < M32)
    (hthr : t + 1 - a < cfg.longPressThreshold) :
    Holding a (t + 1) cfg (update cfg s (t + 1) true) ∧
    noEv (update cfg s (t + 1) true) := by
  obtain ⟨hu, hr, hcp, hla, hrep, he, hd⟩ := h
  have hns : LOOP_INTERVAL_MS ≤ wsub (t + 1) s.lastUpdateTime := by
    rw [hu, wsub_sub (Nat.le_succ t) hM]
    simp [LOOP_INTERVAL_MS]
  rw [update_go hns]
  rw [edgePhase_same (by simp [clearFlags, hr])]
  have hws : wsub (t + 1)
      ({ clearFlags s with lastUpdateTime := t + 1 } : BState).edgeTime = t + 1 - a := by
    simp [clearFlags, he]
    exact wsub_sub (by omega) hM
  by_cases hx : cfg.debounceTime ≤ t + 1 - a
  · rw [debounceExit_ge (by rw [hws]; exact hx)]
    rw [holdPhase_go (by simp) (by simp [clearFlags, hcp])]
    rw [longPressPhase_early (by
      simp only [clearFlags]
      show wsub (t + 1) s.edgeTime < cfg.longPressThreshold
      rw [he, wsub_sub (by omega) hM]
      exact hthr)]
    rw [repeatPhase_off (by simp [clearFlags, hla])]
    rw [accelPhase_off (by simp [clearFlags, hla])]
    have hdx : decide (t + 1 - a < cfg.debounceTime) = false := by simp; omega
    refine ⟨⟨?_, ?_, ?_, ?_, ?_, ?_, ?_⟩, ?_, ?_, ?_, ?_⟩ <;>
      simp [clearFlags, hr, hcp, hla, hrep, he, hdx]
  · have hdx1 : t - a < cfg.debounceTime := by omega
    have hsd : s.debouncing = true := by
      rw [hd]
      simp [hdx1]
    rw [debounceExit_stay (by rw [hws]; omega)]
    rw [holdPhase_skip_deb (by simp [clearFlags, hsd])]
    have hdx : decide (t + 1 - a < cfg.debounceTime) = true := by simp; omega
    refine ⟨⟨?_, ?_, ?_, ?_, ?_, ?_, ?_⟩, ?_, ?_, ?_, ?_⟩ <;>
      simp [clearFlags, hr, hcp, hla, hrep, he, hsd, hdx]

/-- The long-press threshold-crossing step. -/
theorem step_longfire {cfg : Config} {s : BState} {a t : Nat}
    (h : Holding a t cfg s) (hat : a ≤ t) (hM : t + 1 < M32)
    (hdt : cfg.debounceTime ≤ cfg.longPressThreshold)
    (hthr : t + 1 - a = cfg.longPressThreshold) :
    LongHold a (t + 1) (update cfg s (t + 1) true) ∧
    (update cfg s (t + 1) true).longPressDetected = true ∧
    (update cfg s (t + 1) true).shortPressDetected = false ∧
    (update cfg s (t + 1) true).releaseDetected = false ∧
    (update cfg s (t + 1) true).longReleaseDetected = false := by
  obtain ⟨hu, hr, hcp, hla, hrep, he, hd⟩ := h
  have hns : LOOP_INTERVAL_MS ≤ wsub (t + 1) s.lastUpdateTime := by
    rw [hu, wsub_sub (Nat.le_succ t) hM]
    simp [LOOP_INTERVAL_MS]
  rw [update_go hns]
  rw [edgePhase_same (by simp [clearFlags, hr])]
  have hws : wsub (t + 1)
      ({ clearFlags s with lastUpdateTime := t + 1 } : BState).edgeTime = t + 1 - a := by
    simp [clearFlags, he]
    exact wsub_sub (by omega) hM
  rw [debounceExit_ge (by rw [hws, hthr]; exact hdt)]
  rw [holdPhase_go (by simp) (by simp [clearFlags, hcp])]
  rw [longPressPhase_fire (by simp [clearFlags, hrep]) (by
    simp only [clearFlags]
    show cfg.longPressThreshold ≤ wsub (t + 1) s.edgeTime
    rw [he, wsub_sub (by omega) hM, hthr])]
  have hf := holdTail_fields cfg (t + 1)
    { ({ clearFlags s with lastUpdateTime := t + 1 } : BState) with
        debouncing := false
        longPressDetected := true
        longPressActive := true
        longPressReported := true
        lastRepeatTime := t + 1
        lastAccelUpdate := t + 1 }
  refine ⟨⟨?_, ?_, ?_, ?_, ?_, ?_, ?_⟩, ?_, ?_, ?_, ?_⟩
  · rw [hf.1]
  · rw [hf.2.2.1]
    simp [clearFlags, hr]
  · rw [hf.2.2.2.1]
  · rw [hf.2.2.2.2.1]
    simp [clearFlags, hcp]
  · rw [hf.2.2.2.2.2.1]
  · rw [hf.2.2.2.2.2.2.1]
  · rw [hf.2.1]
    simp [clearFlags, he]
  · rw [hf.2.2.2.2.2.2.2.2.2.1]
  · rw [hf.2.2.2.2.2.2.2.1]
    simp [clearFlags]
  · rw [hf.2.2.2.2.2.2.2.2.1]
    simp [clearFlags]
  · rw [hf.2.2.2.2.2.2.2.2.2.2]
    simp [clearFlags]

/-- Steady pressed step after the long press has been reported. -/
theorem step_longhold {cfg : Config} {s : BState} {a t : Nat}
    (h : LongHold a t s) (hM : t + 1 < M32) :
    LongHold a (t + 1) (update cfg s (t + 1) true) ∧
    noEv (update cfg s (t + 1) true) := by
  obtain ⟨hu, hr, hd, hcp, hla, hrep, he⟩ := h
  have hns : LOOP_INTERVAL_MS ≤ wsub (t + 1) s.lastUpdateTime := by
    rw [hu, wsub_sub (Nat.le_succ t) hM]
    simp [LOOP_INTERVAL_MS]
  rw [update_go hns]
  rw [edgePhase_same (by simp [clearFlags, hr])]
  rw [debounceExit_not (by simp [clearFlags, hd])]
  rw [holdPhase_go (by simp [clearFlags, hd]) (by simp [clearFlags, hcp])]
  rw [longPressPhase_guard (by simp [clearFlags, hrep])]
  have hf := holdTail_fields cfg (t + 1)
    ({ clearFlags s with lastUpdateTime := t + 1 } : BState)
  refine ⟨⟨?_, ?_, ?_, ?_, ?_, ?_, ?_⟩, ?_, ?_, ?_, ?_⟩
  · rw [hf.1]
  · rw [hf.2.2.1]
    simp [clearFlags, hr]
  · rw [hf.2.2.2.1]
    simp [clearFlags, hd]
  · rw [hf.2.2.2.2.1]
    simp [clearFlags, hcp]
  · rw [hf.2.2.2.2.2.1]
    simp [clearFlags, hla]
  · rw [hf.2.2.2.2.2.2.1]
    simp [clearFlags, hrep]
  · rw [hf.2.1]
    simp [clearFlags, he]
  · rw [hf.2.2.2.2.2.2.2.1]
    simp [clearFlags]
  · rw [hf.2.2.2.2.2.2.2.2.1]
    simp [clearFlags]
  · rw [hf.2.2.2.2.2.2.2.2.2.1]
    simp [clearFlags]
  · rw [hf.2.2.2.2.2.2.2.2.2.2]
    simp [clearFlags]

/-- Release-edge step out of a long press. -/
theorem step_release {cfg : Config} {s : BState} {a t : Nat}
    (h : LongHold a t s) (hM : t + 1 < M32) (hdb : 0 < cfg.debounceTime) :
    Cooling (t + 1) (t + 1) cfg (update cfg s (t + 1) false) ∧
    (update cfg s (t + 1) false).releaseDetected = true ∧
    (update cfg s (t + 1) false).longReleaseDetected = true ∧
    (update cfg s (t + 1) false).shortPressDetected = false ∧
    (update cfg s (t + 1) false).longPressDetected = false := by
  obtain ⟨hu, hr, hd, hcp, hla, hrep, he⟩ := h
  have hns : LOOP_INTERVAL_MS ≤ wsub (t + 1) s.lastUpdateTime := by
    rw [hu, wsub_sub (Nat.le_succ t) hM]
    simp [LOOP_INTERVAL_MS]
  rw [update_go hns]
  rw [edgePhase_release (by simp [clearFlags, hr]) (by simp [clearFlags, hd])]
  rw [debounceExit_stay (by simp [wsub_self, hdb])]
  rw [holdPhase_skip_up (by simp)]
  refine ⟨⟨?_, ?_, ?_, ?_, ?_, ?_, ?_⟩, ?_, ?_, ?_, ?_⟩ <;>
    simp [clearFlags, hla, hdb]

/-- Steady released step while debouncing out of the release edge. -/
theorem step_cooling {cfg : Config} {s : BState} {b t : Nat}
    (h : Cooling b t cfg s) (hbt : b ≤ t) (hM : t + 1 < M32) :
    Cooling b (t + 1) cfg (update cfg s (t + 1) false) ∧
    noEv (update cfg s (t + 1) false) := by
  obtain ⟨hu, hr, hcp, hla, hrep, he, hd⟩ := h
  have hns : LOOP_INTERVAL_MS ≤ wsub (t + 1) s.lastUpdateTime := by
    rw [hu, wsub_sub (Nat.le_succ t) hM]
    simp [LOOP_INTERVAL_MS]
  rw [update_go hns]
  rw [edgePhase_same (by simp [clearFlags, hr])]
  have hws : wsub (t + 1)
      ({ clearFlags s with lastUpdateTime := t + 1 } : BState).edgeTime = t + 1 - b := by
    simp [clearFlags, he]
    exact wsub_sub (by omega) hM
  by_cases hx : cfg.debounceTime ≤ t + 1 - b
  · rw [debounceExit_ge (by rw [hws]; exact hx)]
    rw [holdPhase_skip_up (by simp [clearFlags, hcp])]
    have hdx : decide (t + 1 - b < cfg.debounceTime) = false := by simp; omega
    refine ⟨⟨?_, ?_, ?_, ?_, ?_, ?_, ?_⟩, ?_, ?_, ?_, ?_⟩ <;>
      simp [clearFlags, hr, hcp, hla, hrep, he, hdx]
  · have hdx1 : t - b < cfg.debounceTime := by omega
    have hsd : s.debouncing = true := by
      rw [hd]
      simp [hdx1]
    rw [debounceExit_stay (by rw [hws]; omega)]
    rw [holdPhase_skip_up (by simp [clearFlags, hcp])]
    have hdx : decide (t + 1 - b < cfg.debounceTime) = true := by simp; omega
    refine ⟨⟨?_, ?_, ?_, ?_, ?_, ?_, ?_⟩, ?_, ?_, ?_, ?_⟩ <;>
      simp [clearFlags, hr, hcp, hla, hrep, he, hsd, hdx]

/-- A cooled-down state whose debounce window has fully elapsed is ready. -/
theorem cooling_ready {cfg : Config} {b t : Nat} {s : BState}
    (h : Cooling b t cfg s) (hdone : cfg.debounceTime ≤ t - b) : ReadyAt t s := by
  obtain ⟨hu, hr, hcp, hla, hrep, he, hdd⟩ := h
  refine ⟨hu, hr, ?_, hcp, hla, hrep⟩
  rw [hdd]
  simp
  omega

theorem run_ready_range (cfg : Config) (inp : Nat → Bool) (s0 : BState) (t m : Nat)
    (h0 : ReadyAt t (runUpTo cfg inp s0 t)) (hm : m < M32)
    (hinp : ∀ j, t < j → j ≤ m → inp j = false) :
    ∀ i, t ≤ i → i ≤ m →
      ReadyAt i (runUpTo cfg inp s0 i) ∧
      (t < i → noEv (runUpTo cfg inp s0 i)) := by
  intro i hti
  induction i, hti using Nat.le_induction with
  | base =>
    intro _
    exact ⟨h0, fun hlt => absurd hlt (lt_irrefl t)⟩
  | succ i hti ih =>
    intro him
    have hi := ih (by omega)
    rw [runUpTo, hinp (i + 1) (by omega) him]
    have hstep := @step_ready_idle cfg _ _ hi.1 (by omega)
    exact ⟨hstep.1, fun _ => hstep.2⟩

theorem run_holding_range (cfg : Config) (inp : Nat → Bool) (s0 : BState) (a m : Nat)
    (h0 : Holding a a cfg (runUpTo cfg inp s0 a)) (hm : m < M32)
    (hthr : m - a < cfg.longPressThreshold)
    (hinp : ∀ j, a < j → j ≤ m → inp j = true) :
    ∀ i, a ≤ i → i ≤ m →
      Holding a i cfg (runUpTo cfg inp s0 i) ∧
      (a < i → noEv (runUpTo cfg inp s0 i)) := by
  intro i hai
  induction i, hai using Nat.le_induction with
  | base =>
    intro _
    exact ⟨h0, fun hlt => absurd hlt (lt_irrefl a)⟩
  | succ i hai ih =>
    intro him
    have hi := ih (by omega)
    rw [runUpTo, hinp (i + 1) (by omega) him]
    have hstep := step_holding hi.1 hai (by omega) (by omega)
    exact ⟨hstep.1, fun _ => hstep.2⟩

theorem run_longhold_range (cfg : Config) (inp : Nat → Bool) (s0 : BState)
    (a t0 m : Nat) (h0 : LongHold a t0 (runUpTo cfg inp s0 t0)) (hm : m < M32)
    (hinp : ∀ j, t0 < j → j ≤ m → inp j = true) :
    ∀ i, t0 ≤ i → i ≤ m →
      LongHold a i (runUpTo cfg inp s0 i) ∧
      (t0 < i → noEv (runUpTo cfg inp s0 i)) := by
  intro i hti
  induction i, hti using Nat.le_induction with
  | base =>
    intro _
    exact ⟨h0, fun hlt => absurd hlt (lt_irrefl t0)⟩
  | succ i hti ih =>
    intro him
    have hi := ih (by omega)
    rw [runUpTo, hinp (i + 1) (by omega) him]
    have hstep := @step_longhold cfg _ _ _ hi.1 (by omega)
    exact ⟨hstep.1, fun _ => hstep.2⟩

theorem run_cooling_range (cfg : Config) (inp : Nat → Bool) (s0 : BState) (b m : Nat)
    (h0 : Cooling b b cfg (runUpTo cfg inp s0 b)) (hm : m < M32)
    (hinp : ∀ j, b < j → j ≤ m → inp j = false) :
    ∀ i, b ≤ i → i ≤ m →
      Cooling b i cfg (runUpTo cfg inp s0 i) ∧
      (b < i → noEv (runUpTo cfg inp s0 i)) := by
  intro i hbi
  induction i, hbi using Nat.le_induction with
  | base =>
    intro _
    exact ⟨h0, fun hlt => absurd hlt (lt_irrefl b)⟩
  | succ i hbi ih =>
    intro him
    have hi := ih (by omega)
    rw [runUpTo, hinp (i + 1) (by omega) him]
    have hstep := step_cooling hi.1 hbi (by omega)
    exact ⟨hstep.1, fun _ => hstep.2⟩

/-- One full press-hold-release cycle starting from a ready state: short
press fires exactly at the press edge `a`, long press exactly at
`a + longPressThreshold`, release and long-release exactly (and jointly) at
the release edge `b`, and the machine is again cooling at `b`. -/
theorem cycle_events (cfg : Config) (inp : Nat → Bool) (s0 : BState) (t0 a b : Nat)
    (hdb : 0 < cfg.debounceTime) (hdt : cfg.debounceTime ≤ cfg.longPressThreshold)
    (h0 : ReadyAt t0 (runUpTo cfg inp s0 t0))
    (hta : t0 < a) (hab : a + cfg.longPressThreshold < b) (hb32 : b < M32)
    (hinp : ∀ i, t0 < i → i ≤ b → (inp i = true ↔ (a ≤ i ∧ i < b))) :
    Cooling b b cfg (runUpTo cfg inp s0 b) ∧
    ∀ i, t0 < i → i ≤ b →
      ((runUpTo cfg inp s0 i).shortPressDetected = true ↔ i = a) ∧
      ((runUpTo cfg inp s0 i).longPressDetected = true ↔
        i = a + cfg.longPressThreshold) ∧
      ((runUpTo cfg inp s0 i).releaseDetected = true ↔ i = b) ∧
      ((runUpTo cfg inp s0 i).longReleaseDetected = true ↔ i = b) := by
  have hthr1 : 0 < cfg.longPressThreshold := lt_of_lt_of_le hdb hdt
  have hF1 : ∀ j, t0 < j → j ≤ a - 1 → inp j = false := by
    intro j h1 h2
    cases hj : inp j with
    | false => rfl
    | true =>
      obtain ⟨hx, _⟩ := (hinp j h1 (by omega)).mp hj
      omega
  have hR1 := run_ready_range cfg inp s0 t0 (a - 1) h0 (by omega) hF1
  have hRa : ReadyAt (a - 1) (runUpTo cfg inp s0 (a - 1)) :=
    (hR1 (a - 1) (by omega) (le_refl _)).1
  have ha1 : a - 1 + 1 = a := by omega
  have hia : inp a = true := (hinp a hta (by omega)).mpr (by omega)
  have keya : runUpTo cfg inp s0 a = update cfg (runUpTo cfg inp s0 (a - 1)) a true := by
    conv_lhs => rw [← ha1]
    rw [runUpTo, ha1, hia]
  have hpress' := @step_ready_press cfg _ _ hRa (by omega) hdb
  rw [ha1, ← keya] at hpress'
  have hT1 : ∀ j, a < j → j ≤ a + cfg.longPressThreshold - 1 → inp j = true := by
    intro j h1 h2
    exact (hinp j (by omega) (by omega)).mpr (by omega)
  have hR2 := run_holding_range cfg inp s0 a (a + cfg.longPressThreshold - 1)
    hpress'.1 (by omega) (by omega) hT1
  have hRL : Holding a (a + cfg.longPressThreshold - 1) cfg
      (runUpTo cfg inp s0 (a + cfg.longPressThreshold - 1)) :=
    (hR2 _ (by omega) (le_refl _)).1
  have hL1 : a + cfg.longPressThreshold - 1 + 1 = a + cfg.longPressThreshold := by omega
  have hiL : inp (a + cfg.longPressThreshold) = true :=
    (hinp _ (by omega) (by omega)).mpr (by omega)
  have keyL : runUpTo cfg inp s0 (a + cfg.longPressThreshold) =
      update cfg (runUpTo cfg inp s0 (a + cfg.longPressThreshold - 1))
        (a + cfg.longPressThreshold) true := by
    conv_lhs => rw [← hL1]
    rw [runUpTo, hL1, hiL]
  have hfire' := step_longfire hRL (by omega) (by omega) hdt (by omega)
  rw [hL1, ← keyL] at hfire'
  have hT2 : ∀ j, a + cfg.longPressThreshold < j → j ≤ b - 1 → inp j = true := by
    intro j h1 h2
    exact (hinp j (by omega) (by omega)).mpr (by omega)
  have hR3 := run_longhold_range cfg inp s0 a (a + cfg.longPressThreshold) (b - 1)
    hfire'.1 (by omega) hT2
  have hRb : LongHold a (b - 1) (runUpTo cfg inp s0 (b - 1)) :=
    (hR3 _ (by omega) (le_refl _)).1
  have hb1 : b - 1 + 1 = b := by omega
  have hib : inp b = false := by
    cases hj : inp b with
    | false => rfl
    | true =>
      obtain ⟨_, hx⟩ := (hinp b (by omega) (le_refl _)).mp hj
      omega
  have keyb : runUpTo cfg inp s0 b = update cfg (runUpTo cfg inp s0 (b - 1)) b false := by
    conv_lhs => rw [← hb1]
    rw [runUpTo, hb1, hib]
  have hrel' := step_release hRb (by omega) hdb
  rw [hb1, ← keyb] at hrel'
  refine ⟨hrel'.1, ?_⟩
  intro i h1 h2
  by_cases hi1 : i ≤ a - 1
  · obtain ⟨e1, e2, e3, e4⟩ := (hR1 i (by omega) hi1).2 h1
    refine ⟨?_, ?_, ?_, ?_⟩
    · rw [e1]
      simp
      omega
    · rw [e3]
      simp
      omega
    · rw [e2]
      simp
      omega
    · rw [e4]
      simp
      omega
  · by_cases hi2 : i = a
    · subst hi2
      refine ⟨?_, ?_, ?_, ?_⟩
      · rw [hpress'.2.1]
        simp
      · rw [hpress'.2.2.2.1]
        simp
        omega
      · rw [hpress'.2.2.1]
        simp
        omega
      · rw [hpress'.2.2.2.2]
        simp
        omega
    · by_cases hi3 : i ≤ a + cfg.longPressThreshold - 1
      · obtain ⟨e1, e2, e3, e4⟩ := (hR2 i (by omega) hi3).2 (by omega)
        refine ⟨?_, ?_, ?_, ?_⟩
        · rw [e1]
          simp
          omega
        · rw [e3]
          simp
          omega
        · rw [e2]
          simp
          omega
        · rw [e4]
          simp
          omega
      · by_cases hi4 : i = a + cfg.longPressThreshold
        · subst hi4
          refine ⟨?_, ?_, ?_, ?_⟩
          · rw [hfire'.2.2.1]
            simp
            omega
          · rw [hfire'.2.1]
            simp
          · rw [hfire'.2.2.2.1]
            simp
            omega
          · rw [hfire'.2.2.2.2]
            simp
            omega
        · by_cases hi5 : i ≤ b - 1
          · obtain ⟨e1, e2, e3, e4⟩ := (hR3 i (by omega) hi5).2 (by omega)
            refine ⟨?_, ?_, ?_, ?_⟩
            · rw [e1]
              simp
              omega
            · rw [e3]
              simp
              omega
            · rw [e2]
              simp
              omega
            · rw [e4]
              simp
              omega
          · have hib' : i = b := by omega
            subst hib'
            refine ⟨?_, ?_, ?_, ?_⟩
            · rw [hrel'.2.2.2.1]
              simp
              omega
            · rw [hrel'.2.2.2.2]
              simp
              omega
            · rw [hrel'.2.1]
              simp
            · rw [hrel'.2.2.1]
              simp

/-- C2: with one poll per millisecond from reset, raw input pressed exactly
on `[a, b) ∪ [a2, d)` (two stable press-hold-release cycles, each held past
the long-press threshold), the run has exactly one poll with short-press
true per cycle (the press edges `a` and `a2`), exactly one poll with
long-press-enter true per cycle (`a + threshold` and `a2 + threshold` — the
reported guard set at the first firing and cleared only on release keeps it
to once per physical press, and the release-time clearing permits the second
cycle's firing), and exactly one poll with release true per cycle (`b` and
`d`), on which long-release is also true; repeat may fire on any number of
hold polls, which the claim leaves unconstrained ("zero or more"). -/
theorem claim2_press_hold_release_event_structure
    (cfg : Config) (inp : Nat → Bool) (a b a2 d : Nat)
    (hdb : 0 < cfg.debounceTime) (hdt : cfg.debounceTime ≤ cfg.longPressThreshold)
    (ha : 0 < a) (hab : a + cfg.longPressThreshold < b)
    (hbc : b + cfg.debounceTime < a2) (hcd : a2 + cfg.longPressThreshold < d)
    (hd32 : d < M32)
    (hinp : ∀ i, 0 < i → i ≤ d →
      (inp i = true ↔ (a ≤ i ∧ i < b) ∨ (a2 ≤ i ∧ i < d))) :
    ∀ i, 0 < i → i ≤ d →
      ((runUpTo cfg inp (initState cfg) i).shortPressDetected = true ↔
        (i = a ∨ i = a2)) ∧
      ((runUpTo cfg inp (initState cfg) i).longPressDetected = true ↔
        (i = a + cfg.longPressThreshold ∨ i = a2 + cfg.longPressThreshold)) ∧
      ((runUpTo cfg inp (initState cfg) i).releaseDetected = true ↔
        (i = b ∨ i = d)) ∧
      ((runUpTo cfg inp (initState cfg) i).longReleaseDetected = true ↔
        (i = b ∨ i = d)) := by
  have h0 : ReadyAt 0 (runUpTo cfg inp (initState cfg) 0) := ready_init cfg
  have hcy1 := cycle_events cfg inp (initState cfg) 0 a b hdb hdt h0 ha hab (by omega)
    (by
      intro i h1 h2
      rw [hinp i h1 (by omega)]
      constructor
      · rintro (h | ⟨x1, x2⟩)
        · exact h
        · omega
      · intro h
        exact Or.inl h)
  have hF2 : ∀ j, b < j → j ≤ a2 - 1 → inp j = false := by
    intro j h1 h2
    cases hj : inp j with
    | false => rfl
    | true =>
      rcases (hinp j (by omega) (by omega)).mp hj with ⟨x1, x2⟩ | ⟨x1, x2⟩ <;> omega
  have hR4 := run_cooling_range cfg inp (initState cfg) b (a2 - 1) hcy1.1 (by omega) hF2
  have hready2 : ReadyAt (a2 - 1) (runUpTo cfg inp (initState cfg) (a2 - 1)) :=
    cooling_ready (hR4 (a2 - 1) (by omega) (le_refl _)).1 (by omega)
  have hcy2 := cycle_events cfg inp (initState cfg) (a2 - 1) a2 d hdb hdt hready2
    (by omega) hcd hd32
    (by
      intro i h1 h2
      rw [hinp i (by omega) h2]
      constructor
      · rintro (⟨x1, x2⟩ | h)
        · omega
        · exact h
      · intro h
        exact Or.inr h)
  intro i h1 h2
  by_cases hib : i ≤ b
  · have hc := hcy1.2 i h1 hib
    refine ⟨?_, ?_, ?_, ?_⟩
    · rw [hc.1]
      omega
    · rw [hc.2.1]
      omega
    · rw [hc.2.2.1]
      omega
    · rw [hc.2.2.2]
      omega
  · by_cases hia2 : i ≤ a2 - 1
    · obtain ⟨e1, e2, e3, e4⟩ := (hR4 i (by omega) hia2).2 (by omega)
      refine ⟨?_, ?_, ?_, ?_⟩
      · rw [e1]
        simp
        omega
      · rw [e3]
        simp
        omega
      · rw [e2]
        simp
        omega
      · rw [e4]
        simp
        omega
    · have hc := hcy2.2 i (by omega) h2
      refine ⟨?_, ?_, ?_, ?_⟩
      · rw [hc.1]
        omega
      · rw [hc.2.1]
        omega
      · rw [hc.2.2.1]
        omega
      · rw [hc.2.2.2]
        omega

/-- A small configuration for exercising the cycle theorem concretely:
1 ms debounce, 2 ms long-press threshold. -/
def cfg2W : Config :=
  { debounceTime := 1
    invertedLogic := false
    longPressThreshold := 2
    repeatIntervalStart := 3
    repeatIntervalMin := 1
    acceleration := 1 }

/-- Raw input for the witness run: pressed on [1,4) and [6,9). -/
def inp2W : Nat → Bool := fun i => decide ((1 ≤ i ∧ i < 4) ∨ (6 ≤ i ∧ i < 9))

theorem claim2_witness :
    0 < cfg2W.debounceTime ∧
    cfg2W.debounceTime ≤ cfg2W.longPressThreshold ∧
    1 + cfg2W.longPressThreshold < 4 ∧
    ((runUpTo cfg2W inp2W (initState cfg2W) 6).shortPressDetected = true ↔
      (6 = 1 ∨ 6 = 6)) ∧
    ((runUpTo cfg2W inp2W (initState cfg2W) 8).longPressDetected = true ↔
      (8 = 1 + cfg2W.longPressThreshold ∨ 8 = 6 + cfg2W.longPressThreshold)) ∧
    ((runUpTo cfg2W inp2W (initState cfg2W) 9).releaseDetected = true ↔
      (9 = 4 ∨ 9 = 9)) := by
  have H := claim2_press_hold_release_event_structure cfg2W inp2W 1 4 6 9
    (by decide) (by decide) (by decide) (by decide) (by decide) (by decide) (by decide)
    (by
      intro i h1 h2
      interval_cases i <;> decide)
  exact ⟨by decide, by decide, by decide,
    (H 6 (by decide) (by decide)).1,
    (H 8 (by decide) (by decide)).2.1,
    (H 9 (by decide) (by decide)).2.2.1⟩

theorem claim9_witness :
    (∀ t ∈ ([7, 7, 7] : List Nat), t = 7) ∧
    tokenRun (tokenStep 7 0 0) [7, 7, 7] = tokenStep 7 0 0 ∧
    (runReads 1 slotsW 0 [2, 3, 2]).1 ≤ 1 := by
  have hl : ∀ t ∈ ([7, 7, 7] : List Nat), t = 7 := by decide
  exact ⟨hl, (claim9_refresh_generation 7 0 0 [7, 7, 7] hl 1 0 slotsW [2, 3, 2]).1,
    (claim9_refresh_generation 7 0 0 [7, 7, 7] hl 1 0 slotsW [2, 3, 2]).2.1⟩

end OptaButton
